import Mathlib

/-!
Verification of the mailsac/smtpd SMTP receiving library.

The Go source is shallowly embedded: Go strings and byte slices become
`List Char` (one `Char` per byte; all concrete inputs here are ASCII),
fallible Go functions become `Except`/`Option`-valued Lean functions, and
stateful methods pass their state explicitly.  Standard-library behaviour
(`net/mail`, `net/textproto`, `mime`, `mime/quotedprintable`,
`encoding/base64`, `math/rand`) is modelled by small executable functions
whose doc comments name the Go function they model.  Nondeterministic
inputs (wall-clock time, random bytes, the results of `rand.Intn`) enter
as explicit oracle parameters.
-/

namespace Smtpd

/-- Go strings / byte slices, one `Char` per byte. -/
abbrev Str := List Char

/-! ## String utilities (models of Go `strings` helpers) -/

/-- Split a character list at every occurrence of `sep` (model of
`strings.Split`): the separators are dropped and the pieces kept in order;
there is always at least one (possibly empty) piece. -/
def splitOnChar (sep : Char) : Str → List Str
  | [] => [[]]
  | c :: cs =>
    let r := splitOnChar sep cs
    if c = sep then [] :: r
    else
      match r with
      | [] => [[c]]
      | l :: ls => (c :: l) :: ls

/-- Join pieces with a newline between them (inverse of `splitOnChar '\n'`). -/
def joinNl : List Str → Str
  | [] => []
  | [l] => l
  | l :: ls => l ++ '\n' :: joinNl ls

/-- ASCII whitespace, the characters Go's `strings.TrimSpace` strips on
ASCII input. -/
def isSpaceChar (c : Char) : Bool := c = ' ' || c = '\t' || c = '\n' || c = '\r'

/-- Model of Go `strings.TrimSpace` on ASCII input. -/
def trimStr (s : Str) : Str :=
  ((s.dropWhile isSpaceChar).reverse.dropWhile isSpaceChar).reverse

/-- Strip trailing spaces, tabs and carriage returns (transport padding). -/
def rtrimWS (s : Str) : Str :=
  (s.reverse.dropWhile (fun c => c = ' ' || c = '\t' || c = '\r')).reverse

/-- Model of Go `strings.ToLower` on ASCII input. -/
def lowerStr (s : Str) : Str := s.map Char.toLower

/-- Model of Go `strings.Contains`. -/
def strContains : Str → Str → Bool
  | hay, needle =>
    match hay with
    | [] => needle.isEmpty
    | _ :: cs => needle.isPrefixOf hay || strContains cs needle

/-! ## LimitedReader (conn.go) -/

/-- Errors a read can produce: the structured `SMTPError` carrying a
response code, or an error of the underlying reader. -/
inductive RWErr where
  | smtp (code : Nat) (msg : String)
  | under (msg : String)
deriving DecidableEq

/-- The `SMTPError{552, errors.New("message size too large")}` value built
in `LimitedReader.Read`. -/
def sizeErr : RWErr := .smtp 552 "message size too large"

/-- `LimitedReader` from conn.go.  The underlying reader field `R` is not
stored; each call to `read` instead receives the result the underlying
reader would produce. -/
structure LimitedReader where
  N : Int
  ReadsRemaining : Int
  DidHitLimit : Bool
deriving DecidableEq

/-- One result of the underlying reader `l.R.Read`: byte count delivered
and optional error. -/
abbrev UnderRead := Nat × Option String

/-- Result of one `LimitedReader.Read` call: byte count, returned error,
and the reader's state afterwards. -/
structure ReadOut where
  n : Nat
  err : Option RWErr
  state : LimitedReader
deriving DecidableEq

/-- `LimitedReader.Read` from conn.go, given the result `u` the underlying
reader would return if consulted.  Note that when the limit has not been
hit, the Go code leaves its `err` return nil even if the underlying read
errored (the `err != nil && rerr != nil` guard is false), so the
underlying error is swallowed on that path. -/
def LimitedReader.read (l0 : LimitedReader) (u : UnderRead) : ReadOut :=
  let l := if l0.N ≤ 0 ∧ l0.DidHitLimit = false then
      { l0 with DidHitLimit := true, ReadsRemaining := 10 } else l0
  if l.DidHitLimit then
    let l := { l with ReadsRemaining := l.ReadsRemaining - 1 }
    if l.ReadsRemaining ≤ 0 then
      { n := 0, err := some sizeErr, state := l }
    else
      let err : Option RWErr :=
        match u.2 with
        | some e => some (.under e)
        | none => some sizeErr
      { n := u.1, err := err, state := { l with N := l.N - u.1 } }
  else
    { n := u.1, err := none, state := { l with N := l.N - u.1 } }

/-- State of the reader after `k` calls to `Read`, where `us i` is the
result the underlying reader delivers on the `i`-th call. -/
def LimitedReader.run (l : LimitedReader) (us : Nat → UnderRead) : Nat → LimitedReader
  | 0 => l
  | k + 1 => ((l.run us k).read (us k)).state

/-- Output of the `k`-th (0-based) call to `Read`. -/
def LimitedReader.out (l : LimitedReader) (us : Nat → UnderRead) (k : Nat) : ReadOut :=
  (l.run us k).read (us k)

/-! ## Conn (conn.go) -/

/-- `net/mail.Address`: display name and address spec. -/
structure Address where
  name : Str
  address : Str
deriving DecidableEq

/-- `ErrTransaction`, the only error `StartTX` and `EndTX` produce. -/
inductive ConnErr where
  | errTransaction
deriving DecidableEq

/-- The mutable per-connection state of `Conn` that the claims touch.
`limitedReader = none` models the nil pointer `c.limitedReader`;
`User = none` models a nil `AuthUser`. -/
structure Conn where
  IsTLS : Bool
  User : Option String
  FromAddr : Option Address
  ToAddr : List Address
  AdditionalHeaders : Str
  MaxSize : Int
  transaction : Int
  limitedReader : Option LimitedReader
deriving DecidableEq

/-- `Conn.setupTextProto`: installs the bounded reader only when
`MaxSize > 0`; otherwise `limitedReader` keeps its previous value (nil on
a fresh connection). -/
def Conn.setupTextProto (c : Conn) : Conn :=
  if c.MaxSize > 0 then
    { c with limitedReader := some { N := c.MaxSize, ReadsRemaining := 0, DidHitLimit := false } }
  else c

/-- `Conn.StartTX`; `nowNano` models `int(time.Now().UnixNano())`. -/
def Conn.StartTX (c : Conn) (nowNano : Int) (f : Address) : Except ConnErr Conn :=
  if c.transaction ≠ 0 then .error .errTransaction
  else .ok { c with transaction := nowNano, FromAddr := some f }

/-- `Conn.EndTX`. -/
def Conn.EndTX (c : Conn) : Except ConnErr Conn :=
  if c.transaction = 0 then .error .errTransaction
  else .ok { c with transaction := 0 }

/-- `Conn.ResetBuffers`.  The Go body writes through the pointer
`c.limitedReader` unconditionally; when that pointer is nil the call
faults (nil-pointer dereference), which is modelled by `none`. -/
def Conn.ResetBuffers (c : Conn) : Option Conn :=
  match c.limitedReader with
  | none => none
  | some _ =>
      some { c with FromAddr := none, ToAddr := [], AdditionalHeaders := [],
                    transaction := 0,
                    limitedReader := some { N := c.MaxSize, ReadsRemaining := 0,
                                            DidHitLimit := false } }

/-- `Conn.Reset`: `ResetBuffers` then `c.User = nil` (logging elided). -/
def Conn.Reset (c : Conn) : Option Conn :=
  (c.ResetBuffers).map fun c2 => { c2 with User := none }

/-- A connection with zero values in every field, as a freshly allocated
`Conn` has in Go. -/
def zeroConn : Conn :=
  { IsTLS := false, User := none, FromAddr := none, ToAddr := [],
    AdditionalHeaders := [], MaxSize := 0, transaction := 0, limitedReader := none }

/-! ## Header and message parsing (message.go, with models of net/mail,
net/textproto, mime, mime/quotedprintable, encoding/base64) -/

/-- A parsed header block: keys with values in order of appearance.  Go
stores headers in a map keyed by the canonical (case-normalised) name;
lookups here are case-insensitive, matching that behaviour. -/
abbrev Header := List (Str × Str)

/-- Model of Go `textproto.MIMEHeader.Get` and `mail.Header.Get`: the
first value whose key matches case-insensitively, empty when absent. -/
def headerGet (h : Header) (key : Str) : Str :=
  match h.find? (fun kv => lowerStr kv.1 == lowerStr key) with
  | some kv => kv.2
  | none => []

/-- Locate the blank line that terminates a top-level header block.  The
last element of `splitOnChar '\n'` is the text after the final newline,
so an empty last element is end-of-input, not a blank line; when the
blank line is missing, Go textproto ReadMIMEHeader — and hence
`mail.ReadMessage` — report io.EOF. -/
def splitAtBlankLine : List Str → Option (List Str × List Str)
  | [] => none
  | l :: ls =>
    if l = [] ∧ ls ≠ [] then some ([], ls)
    else
      match splitAtBlankLine ls with
      | some (hs, bs) => some (l :: hs, bs)
      | none => none

/-- Locate the first blank line anywhere (used inside multipart blocks,
where the delimiter line terminates the block, so a final empty element
is a genuine blank line). -/
def splitAtBlankAny : List Str → Option (List Str × List Str)
  | [] => none
  | l :: ls =>
    if l = [] then some ([], ls)
    else
      match splitAtBlankAny ls with
      | some (hs, bs) => some (l :: hs, bs)
      | none => none

/-- Whether a raw header line is a folded continuation line. -/
def startsWithWS (s : Str) : Bool :=
  match s with
  | c :: _ => c = ' ' || c = '\t'
  | [] => false

/-- Model of Go textproto continued-line handling: a line starting with
space or tab continues the previous header line, joined with one space. -/
def mergeContinuedAux (cur : Str) : List Str → List Str
  | [] => [cur]
  | l :: ls =>
    if startsWithWS l then mergeContinuedAux (cur ++ ' ' :: trimStr l) ls
    else cur :: mergeContinuedAux l ls

/-- Fold continuation lines of a header block. -/
def mergeContinued : List Str → List Str
  | [] => []
  | l :: ls => mergeContinuedAux l ls

/-- Errors of the net/mail model: io.EOF from the header reader, a
malformed header line, ErrHeaderNotPresent, and address parse errors. -/
inductive MailErr where
  | eof
  | malformedHeader (line : Str)
  | headerNotPresent
  | addrParse (s : Str)
deriving DecidableEq

/-- Split one header line at the first colon; the value is stripped of
leading spaces and tabs, as Go ReadMIMEHeader does. -/
def splitKV (l : Str) : Option (Str × Str) :=
  match l.dropWhile (· ≠ ':') with
  | ':' :: v => some (l.takeWhile (· ≠ ':'), v.dropWhile (fun c => c = ' ' || c = '\t'))
  | _ => none

/-- Parse the (already folded) header lines of a block. -/
def parseHeaderBlock : List Str → Except MailErr Header
  | [] => .ok []
  | l :: ls =>
    match splitKV l with
    | none => .error (.malformedHeader l)
    | some kv => do
        let rest ← parseHeaderBlock ls
        .ok (kv :: rest)

/-- Result of `mail.ReadMessage`: the header block and the raw body. -/
structure RawMail where
  header : Header
  body : Str
deriving DecidableEq

/-- Model of Go `net/mail.ReadMessage`: read the header block up to a
blank line (folding continuation lines, failing on a header line without
a colon), with everything after the blank line as the body; report io.EOF
when the input ends before the blank line (LF line endings). -/
def readMessage (data : Str) : Except MailErr RawMail :=
  match splitAtBlankLine (splitOnChar '\n' data) with
  | none => .error .eof
  | some (hls, bls) => do
      let h ← parseHeaderBlock (mergeContinued hls)
      .ok { header := h, body := joinNl bls }

/-- Strip one pair of surrounding double quotes. -/
def stripQuotes (s : Str) : Str :=
  match s with
  | '"' :: rest => if rest.getLast? = some '"' then rest.dropLast else s
  | _ => s

/-- Model of Go net/mail single-address parsing, restricted to the two
common shapes `display-name <addr-spec>` and bare `addr-spec`; the
addr-spec must contain an `@`. -/
def parseOneAddress (s0 : Str) : Except MailErr Address :=
  let s := trimStr s0
  if strContains s ['<'] then
    let nm := trimStr (s.takeWhile (· ≠ '<'))
    let rest := (s.dropWhile (· ≠ '<')).drop 1
    let a := rest.takeWhile (· ≠ '>')
    if (rest.dropWhile (· ≠ '>')).head? = some '>' ∧ strContains a ['@'] then
      .ok { name := stripQuotes nm, address := a }
    else .error (.addrParse s0)
  else
    if s ≠ [] ∧ strContains s ['@'] then .ok { name := [], address := s }
    else .error (.addrParse s0)

/-- Model of Go `mail.ParseAddressList`: comma-separated addresses,
every entry well-formed; there is always at least one entry because
splitting yields at least one piece. -/
def parseAddressList (s : Str) : Except MailErr (List Address) :=
  (splitOnChar ',' s).mapM parseOneAddress

/-- Go `mail.Header.AddressList`: ErrHeaderNotPresent when the header is
missing, otherwise parse its value. -/
def headerAddressList (h : Header) (key : Str) : Except MailErr (List Address) :=
  let v := headerGet h key
  if v = [] then .error .headerNotPresent
  else parseAddressList v

/-- Error cases of `mime.ParseMediaType` that message.go distinguishes:
the "mime: no media type" error versus every other parse failure. -/
inductive MediaTypeErr where
  | noMediaType
  | invalid
deriving DecidableEq

/-- The tspecials of RFC 1521, as in Go mime.isTSpecial. -/
def isTSpecial (c : Char) : Bool := ("()<>@,;:\\\"/[]?=".toList).contains c

/-- Go mime.isTokenChar. -/
def isTokenChar (c : Char) : Bool :=
  decide (0x20 < c.toNat) && decide (c.toNat < 0x7f) && ! isTSpecial c

/-- Longest token prefix and the rest, as Go mime.consumeToken. -/
def consumeToken (s : Str) : Str × Str :=
  (s.takeWhile isTokenChar, s.dropWhile isTokenChar)

/-- Model of Go `mime.ParseMediaType` restricted to the media-type
component: take the segment before the first `;`, trim and lowercase it,
and validate it as `token` or `token/token` exactly as Go
checkMediaTypeDisposition does. -/
def parseMediaType (v : Str) : Except MediaTypeErr Str :=
  let mt := lowerStr (trimStr ((splitOnChar ';' v).headI))
  let t := consumeToken mt
  if t.1 = [] then .error .noMediaType
  else if t.2 = [] then .ok mt
  else if t.2.head? ≠ some '/' then .error .invalid
  else
    let t2 := consumeToken (t.2.drop 1)
    if t2.1 = [] then .error .invalid
    else if t2.2 ≠ [] then .error .invalid
    else .ok mt

/-- Model of the `boundary` parameter lookup of `mime.ParseMediaType`
(attribute names are case-insensitive, quoted values are unquoted). -/
def paramBoundary (v : Str) : Str :=
  match ((splitOnChar ';' v).map trimStr).find?
      (fun p => ("boundary=".toList).isPrefixOf (lowerStr p)) with
  | some p => stripQuotes (p.drop 9)
  | none => []

/-- ASCII hex digit test, as Go quotedprintable fromHex accepts. -/
def isHexDigitChar (c : Char) : Bool :=
  c.isDigit || ('a' ≤ c && c ≤ 'f') || ('A' ≤ c && c ≤ 'F')

/-- Numeric value of a hex digit. -/
def hexVal (c : Char) : Nat :=
  if c.isDigit then c.toNat - 48
  else if 'a' ≤ c then c.toNat - 87
  else c.toNat - 55

/-- Scan one prepared quoted-printable line, as the byte loop of Go
`quotedprintable.Reader.Read`: an `=HH` escape needs two hex digits,
tab/CR/LF and bytes at or above 0x80 pass through, and other control
bytes are rejected. -/
def qpScanLine : Str → Except String Str
  | [] => .ok []
  | '=' :: a :: b :: rest =>
    if isHexDigitChar a && isHexDigitChar b then
      (Char.ofNat (16 * hexVal a + hexVal b) :: ·) <$> qpScanLine rest
    else .error "quotedprintable: invalid hex byte"
  | ['='] => .error "quotedprintable: unexpected EOF"
  | ['=', _] => .error "quotedprintable: unexpected EOF"
  | c :: rest =>
    if c = '\t' || c = '\r' || c = '\n' then (c :: ·) <$> qpScanLine rest
    else if decide (0x80 ≤ c.toNat) then (c :: ·) <$> qpScanLine rest
    else if decide (c.toNat < 0x20) || decide (0x7e < c.toNat) then
      .error "quotedprintable: invalid unescaped byte"
    else (c :: ·) <$> qpScanLine rest

/-- Trailing characters Go quotedprintable discards before a newline. -/
def qpTrimRight (s : Str) : Str :=
  (s.reverse.dropWhile (fun c => c = ' ' || c = '\t' || c = '\r' || c = '\n')).reverse

/-- Per-line processing of Go `quotedprintable.Reader`: trailing
whitespace is dropped, a trailing `=` is a soft line break (valid only
when directly followed by the line end, or at end of input after a
nonempty line), and the newline of a completed line is kept.  CRLF input
is normalised to LF by the surrounding code, so only LF is rebuilt. -/
def qpProcessLines : List Str → Except String Str
  | [] => .ok []
  | [last] =>
    let t := qpTrimRight last
    match t.getLast? with
    | some '=' =>
      if last.drop t.length = [] ∧ t.dropLast ≠ [] then qpScanLine t.dropLast
      else .error "quotedprintable: invalid bytes after ="
    | _ => qpScanLine t
  | l :: ls => do
    let whole := l ++ ['\n']
    let t := qpTrimRight whole
    match t.getLast? with
    | some '=' =>
      if (whole.drop t.length).head? = some '\n' ∨
          (whole.drop t.length).take 2 = ['\r', '\n'] then do
        let d ← qpScanLine t.dropLast
        let rest ← qpProcessLines ls
        .ok (d ++ rest)
      else .error "quotedprintable: invalid bytes after ="
    | _ => do
      let d ← qpScanLine (t ++ ['\n'])
      let rest ← qpProcessLines ls
      .ok (d ++ rest)

/-- Model of decoding a whole body through Go `quotedprintable.Reader`
via io.ReadAll (LF line endings). -/
def qpDecode (s : Str) : Except String Str := qpProcessLines (splitOnChar '\n' s)

/-- The standard base64 alphabet. -/
def b64AlphaStd : Str :=
  "ABCDEFGHIJKLMNOPQRSTUVWXYZabcdefghijklmnopqrstuvwxyz0123456789+/".toList

/-- Index of a character in a list. -/
def idxOf? (c : Char) : Str → Option Nat
  | [] => none
  | d :: ds => if d = c then some 0 else (idxOf? c ds).map (· + 1)

/-- Value of a character in the standard base64 alphabet. -/
def b64Val (c : Char) : Option Nat := idxOf? c b64AlphaStd

/-- Four-character quanta of Go `base64.StdEncoding.Decode`: `=` padding
is allowed only at the end; any other character outside the alphabet is a
CorruptInputError, as is a trailing group shorter than four. -/
def base64Quanta : Str → Except String Str
  | [] => .ok []
  | a :: b :: c :: d :: rest =>
    match b64Val a, b64Val b with
    | some va, some vb =>
      if c = '=' then
        if d = '=' ∧ rest = [] then .ok [Char.ofNat (va * 4 + vb / 16)]
        else .error "illegal base64 data"
      else
        match b64Val c with
        | some vc =>
          if d = '=' then
            if rest = [] then
              .ok [Char.ofNat (va * 4 + vb / 16), Char.ofNat ((vb % 16) * 16 + vc / 4)]
            else .error "illegal base64 data"
          else
            match b64Val d with
            | some vd => do
              let tail ← base64Quanta rest
              .ok (Char.ofNat (va * 4 + vb / 16) :: Char.ofNat ((vb % 16) * 16 + vc / 4) ::
                   Char.ofNat ((vc % 4) * 64 + vd) :: tail)
            | none => .error "illegal base64 data"
        | none => .error "illegal base64 data"
    | _, _ => .error "illegal base64 data"
  | _ => .error "illegal base64 data"

/-- Model of Go `base64.StdEncoding.Decode`: CR and LF are ignored, the
rest is decoded in four-character quanta. -/
def base64Decode (s : Str) : Except String Str :=
  base64Quanta (s.filter (fun c => c != '\r' && c != '\n'))

/-- A node of the decoded MIME tree (message.go `Part`); the unexported
`part` pointer is omitted. -/
structure Part where
  header : Header
  Body : Str
  Children : List Part

/-- `readToPart` from message.go: decode per
Content-Transfer-Encoding — quoted-printable while reading, base64 after
reading — and build a leaf part. -/
def readToPart (header : Header) (content : Str) : Except String Part :=
  let cte := lowerStr (headerGet header ("Content-Transfer-Encoding".toList))
  let slurpE := if cte = "quoted-printable".toList then qpDecode content else .ok content
  match slurpE with
  | .error e => .error e
  | .ok slurp =>
    if cte = "base64".toList then
      match base64Decode slurp with
      | .error e => .error e
      | .ok dec => .ok { header := header, Body := dec, Children := [] }
    else .ok { header := header, Body := slurp, Children := [] }

/-- Collect the line blocks of the multipart body parts after an opening
delimiter, up to the closing `--boundary--`; a missing close delimiter is
io.ErrUnexpectedEOF. -/
def mpCollectParts (delim : Str) : List Str → List Str → Except String (List (List Str))
  | _, [] => .error "multipart: unexpected EOF"
  | cur, l :: ls =>
    if rtrimWS l = delim ++ ['-', '-'] then .ok [cur.reverse]
    else if rtrimWS l = delim then do
      let rest ← mpCollectParts delim [] ls
      .ok (cur.reverse :: rest)
    else mpCollectParts delim (l :: cur) ls

/-- Model of Go `mime/multipart.Reader` driven the way message.go drives
it: skip the preamble to the first `--boundary` delimiter (no delimiter
at all means zero parts, since NextPart then reports io.EOF on the first
call), then split the line blocks of each part; the epilogue after the
closing delimiter is discarded. -/
def mpScan (delim : Str) : List Str → Except String (List (List Str))
  | [] => .ok []
  | l :: ls =>
    if rtrimWS l = delim ++ ['-', '-'] then .ok []
    else if rtrimWS l = delim then mpCollectParts delim [] ls
    else mpScan delim ls

/-- Split one part block into its header block and its raw content (the
newline preceding the next delimiter belongs to the delimiter). -/
def mpPartFromLines (ls : List Str) : Except String (Header × Str) :=
  match splitAtBlankAny ls with
  | none => .error "multipart: malformed part"
  | some (hls, bls) =>
    match parseHeaderBlock (mergeContinued hls) with
    | .error _ => .error "multipart: malformed part header"
    | .ok h => .ok (h, joinNl bls)

/-- `parseContent` from message.go.  `fuel` bounds the nesting depth of
multipart containers so the recursion over decoded sub-bodies is
well-founded; every caller passes a fuel larger than any possible nesting
depth of its input, making the fuel-exhausted branch unreachable.  One
modelling note: when `readToPart` fails inside the multipart loop the Go
code discards the error (`err` is immediately reassigned), leaving a nil
`*Part` that is appended to the result and crashes any later dereference;
that outcome is surfaced here as an error of the whole parse. -/
def parseContent : Nat → Header → Str → Except String (List Part)
  | 0, _, _ => .error "multipart nesting too deep"
  | fuel + 1, header, content =>
    let ctv := headerGet header ("Content-Type".toList)
    match parseMediaType ctv with
    | .error .invalid => .error "Media Type error"
    | r =>
      let mediaType :=
        match r with
        | .ok mt => mt
        | .error _ => "application/octet-stream".toList
      if ("multipart/".toList).isPrefixOf mediaType then
        let boundary := paramBoundary ctv
        if boundary = [] then .error "multipart: boundary is empty"
        else
          match mpScan ('-' :: '-' :: boundary) (splitOnChar '\n' content) with
          | .error e => .error e
          | .ok blocks =>
            blocks.mapM (fun ls => do
              let hc ← mpPartFromLines ls
              let part ← readToPart hc.1 hc.2
              match parseMediaType (headerGet hc.1 ("Content-Type".toList)) with
              | .error _ => .error "part media type error"
              | .ok ptype =>
                if ("multipart/".toList).isPrefixOf ptype then do
                  let subs ← parseContent fuel hc.1 part.Body
                  .ok { part with Children := subs }
                else .ok part)
      else
        match readToPart header content with
        | .error e => .error e
        | .ok part => .ok [part]

/-- `Message` from message.go.  The `Conn` back-reference, `MessageID`
and the logger play no role in the claims and are omitted. -/
structure Message where
  To : List Address
  From : Address
  header : Header
  Subject : Str
  RawBody : Str
  Source : Str
  Rcpt : List Address

/-- `Message.Parts`: parse the raw body against the message header.  The
fuel `RawBody.length + 1` exceeds any possible multipart nesting depth. -/
def Message.Parts (m : Message) : Except String (List Part) :=
  parseContent (m.RawBody.length + 1) m.header m.RawBody

/-- `findTypeInParts` from message.go: the first part whose parsed media
type equals `contentType`. -/
def findTypeInParts (contentType : Str) (parts : List Part) : Option Part :=
  parts.find? (fun p =>
    match parseMediaType (headerGet p.header ("Content-Type".toList)) with
    | .ok mt => mt == contentType
    | .error _ => false)

/-- `Message.FindBody` from message.go. -/
def Message.FindBody (m : Message) (contentType : Str) : Except String Str :=
  match parseMediaType (headerGet m.header ("Content-Type".toList)) with
  | .error _ => .error "Media Type error"
  | .ok mediaType =>
    match m.Parts with
    | .error e => .error e
    | .ok parts =>
      if mediaType = contentType then
        match parts with
        | p :: _ => .ok p.Body
        | [] => .error "found, but no data in body"
      else
        let alternatives :=
          if mediaType = "multipart/alternative".toList then parts
          else
            match findTypeInParts ("multipart/alternative".toList) parts with
            | some alt => alt.Children
            | none => []
        match alternatives with
        | [] => .error "No multipart/alternative section found"
        | _ :: _ =>
          match findTypeInParts contentType alternatives with
          | some part => .ok part.Body
          | none => .error "No content found in multipart/alternative section"

/-- `Message.BCC` from message.go: the recipients whose address is not
among the header To addresses (a set membership via a Go map), kept in
Rcpt order. -/
def Message.BCC (m : Message) : List Address :=
  let inHeaders := m.To.map (fun t => t.address)
  m.Rcpt.foldl (fun bcc r => if inHeaders.contains r.address then bcc else bcc ++ [r]) []

/-- The data mutation `NewMessage` performs when the first parse reports
io.EOF: append a `Content-Type: text/plain` header unless the substring
`"\nContent-Type:"` occurs somewhere in the blob, then append a blank
line. -/
def augmentNoBody (data : Str) : Str :=
  (if strContains data ("\nContent-Type:".toList) then data
   else data ++ ("Content-Type: text/plain\n".toList)) ++ ['\n', '\n']

/-- `NewMessage` from message.go.  The `.ok []` case models Go's
`from[0]` on an empty list (an index-out-of-range crash); it is
unreachable because `parseAddressList` always yields at least one entry
on success. -/
def NewMessage (data0 : Str) (rcpt : List Address) : Except MailErr Message :=
  let dr : Str × Except MailErr RawMail :=
    match readMessage data0 with
    | .error .eof => (augmentNoBody data0, readMessage (augmentNoBody data0))
    | r => (data0, r)
  match dr.2 with
  | .error e => .error e
  | .ok m =>
    let toAddrs := (headerAddressList m.header ("To".toList)).toOption.getD []
    match headerAddressList m.header ("From".toList) with
    | .error e => .error e
    | .ok [] => .error (.addrParse [])
    | .ok (f :: _) =>
      .ok { To := toAddrs, From := f, header := m.header,
            Subject := headerGet m.header ("subject".toList),
            RawBody := m.body, Source := dr.1, Rcpt := rcpt }

/-- The resolution order of C5, written from the claim wording: root
media type equal to `ct` selects the first part body; a
`multipart/alternative` root searches the root parts; otherwise the
children of a `multipart/alternative` root part are searched; `none` is
the error outcome. -/
def findBodySpecOutcome (mediaType : Str) (parts : List Part) (ct : Str) : Option Str :=
  if mediaType = ct then parts.head?.map (fun p => p.Body)
  else if mediaType = "multipart/alternative".toList then
    (findTypeInParts ct parts).map (fun p => p.Body)
  else
    match findTypeInParts ("multipart/alternative".toList) parts with
    | some alt => (findTypeInParts ct alt.Children).map (fun p => p.Body)
    | none => none

/-! ## Message id generation (messageids.go) -/

/-- The 62-character rotating alphabet `_charset` of messageids.go. -/
def _charset : Str :=
  "abcdefghijklmnopqrstuvwxyzABCDEFGHIJKLMNOPQRSTUVWXYZ0123456789".toList

/-- Go `charIndexes = len(_charset) - 1`. -/
def charIndexes : Nat := _charset.length - 1

/-- `getCounter`: increment the process-wide counter, wrap past
`charIndexes`, and return the selected alphabet character together with
the new counter value (the lock is immaterial in this sequential
model). -/
def getCounter (counter : Nat) : Char × Nat :=
  let c := counter + 1
  let c2 := if c > charIndexes then 0 else c
  (_charset.getD c2 'a', c2)

/-- `randomInt(min, max) = rand.Intn(max-min) + min`; the result of
`rand.Intn(max-min)` — a uniform draw from `[0, max-min)` — enters as the
oracle `intnResult`, constrained by `intnResult < _mx - mn` at use
sites. -/
def randomInt (mn _mx : Nat) (intnResult : Nat) : Nat := intnResult + mn

/-- Digit characters of Go `strconv.FormatInt` base 36. -/
def base36Digit (n : Nat) : Char :=
  if n < 10 then Char.ofNat (48 + n) else Char.ofNat (87 + n)

/-- Accumulate the base-36 digits of `n`, most significant first. -/
def natToBase36Aux : Nat → Str → Str
  | 0, acc => acc
  | n + 1, acc => natToBase36Aux ((n + 1) / 36) (base36Digit ((n + 1) % 36) :: acc)
termination_by n _ => n
decreasing_by
  exact Nat.div_lt_self (Nat.succ_pos n) (by norm_num)

/-- Model of Go `strconv.FormatInt(n, 36)` for nonnegative `n`. -/
def natToBase36 (n : Nat) : Str :=
  if n = 0 then ['0'] else natToBase36Aux n []

/-- The URL-safe alphabet of Go `base64.URLEncoding`. -/
def b64AlphaUrl : Str :=
  "ABCDEFGHIJKLMNOPQRSTUVWXYZabcdefghijklmnopqrstuvwxyz0123456789-_".toList

/-- Character `i` of the URL-safe base64 alphabet. -/
def b64UrlChr (i : Nat) : Char := b64AlphaUrl.getD i 'A'

/-- Model of Go `base64.URLEncoding.EncodeToString` on a byte list. -/
def base64UrlEncode : List Nat → Str
  | [] => []
  | [x] => [b64UrlChr (x / 4), b64UrlChr ((x % 4) * 16), '=', '=']
  | [x, y] =>
    [b64UrlChr (x / 4), b64UrlChr ((x % 4) * 16 + y / 16), b64UrlChr ((y % 16) * 4), '=']
  | x :: y :: z :: rest =>
    b64UrlChr (x / 4) :: b64UrlChr ((x % 4) * 16 + y / 16) ::
      b64UrlChr ((y % 16) * 4 + z / 64) :: b64UrlChr (z % 64) :: base64UrlEncode rest

/-- Model of Go `strings.Replace(s, old, new, -1)` for a one-character
pattern `old`. -/
def replaceChar (s : Str) (old : Char) (new : Str) : Str :=
  (s.map (fun c => if c = old then new else [c])).flatten

/-- `NewMessageID` from messageids.go on the successful crypto/rand path.
Oracles: `nowMs` models `UnixNano/Millisecond`, `intn5` the result of
`rand.Intn(18-13)`, `key i` the i-th random byte (taken mod 256), and
`counter` the process-wide `_counter`.  Returns the id and the final
counter value. -/
def NewMessageID (nowMs : Nat) (intn5 : Nat) (key : Nat → Nat) (counter : Nat) :
    Str × Nat :=
  let idLength := randomInt 13 18 intn5
  let dateEntropy := (natToBase36 (nowMs + idLength)).drop 4
  let randomPart : List Nat := (List.range idLength).map (fun i => key i % 256)
  let r0 := replaceChar (base64UrlEncode randomPart) '=' []
  let g1 := getCounter counter
  let r1 := replaceChar r0 '-' [g1.1]
  let g2 := getCounter g1.2
  let r2 := replaceChar r1 '/' [g2.1]
  let g3 := getCounter g2.2
  let g4 := getCounter g3.2
  (dateEntropy ++ [g3.1] ++ r2 ++ [g4.1], g4.2)

/-- A concrete one-part plain-text message, used as the C5 witness. -/
def plainMsg : Message :=
  { To := [], From := { name := [], address := "s@e.com".toList },
    header := [("Content-Type".toList, "text/plain".toList)],
    Subject := [], RawBody := "hello".toList, Source := [], Rcpt := [] }

/-- A concrete message blob whose body is declared quoted-printable but
contains the invalid escape `=FG`, used as the C7 witness. -/
def qpMail : Str :=
  ("From: a@b.c\nContent-Type: text/html\nContent-Transfer-Encoding: quoted-printable\n\n=FG\n").toList

/-! ## Theorems about LimitedReader and Conn -/

theorem LimitedReader.read_first (l : LimitedReader) (u : UnderRead)
    (h1 : l.N ≤ 0) (h2 : l.DidHitLimit = false) (hu : u.2 = none) :
    l.read u = { n := u.1, err := some sizeErr,
                 state := { N := l.N - u.1, ReadsRemaining := 9, DidHitLimit := true } } := by
  simp [LimitedReader.read, h1, h2, hu]

theorem LimitedReader.read_hit (l : LimitedReader) (u : UnderRead)
    (h : l.DidHitLimit = true) (hgt : 1 < l.ReadsRemaining) (hu : u.2 = none) :
    l.read u = { n := u.1, err := some sizeErr,
                 state := { N := l.N - u.1, ReadsRemaining := l.ReadsRemaining - 1,
                            DidHitLimit := true } } := by
  simp [LimitedReader.read, h, hu]
  intro hle
  exact absurd hle (by omega)

theorem LimitedReader.read_drained (l : LimitedReader) (u : UnderRead)
    (h : l.DidHitLimit = true) (hle : l.ReadsRemaining ≤ 1) :
    l.read u = { n := 0, err := some sizeErr,
                 state := { l with ReadsRemaining := l.ReadsRemaining - 1 } } := by
  have : l.ReadsRemaining - 1 ≤ 0 := by omega
  simp [LimitedReader.read, h, this]

theorem LimitedReader.run_hit (l : LimitedReader) (us : Nat → UnderRead)
    (h1 : l.N ≤ 0) (h2 : l.DidHitLimit = false) (hu : ∀ k, (us k).2 = none) :
    ∀ k, 1 ≤ k → (l.run us k).DidHitLimit = true ∧
      (l.run us k).ReadsRemaining = 10 - (k : Int) := by
  intro k hk
  induction k with
  | zero => omega
  | succ n ih =>
    rcases Nat.eq_zero_or_pos n with hn | hn
    · subst hn
      have e : l.run us 1 = (l.read (us 0)).state := rfl
      rw [e, LimitedReader.read_first l _ h1 h2 (hu 0)]
      refine ⟨rfl, ?_⟩
      show (9 : Int) = 10 - ((1 : Nat) : Int)
      norm_num
    · obtain ⟨hhit, hrr⟩ := ih hn
      have e : l.run us (n + 1) = ((l.run us n).read (us n)).state := rfl
      by_cases hgt : 1 < (l.run us n).ReadsRemaining
      · rw [e, LimitedReader.read_hit _ _ hhit hgt (hu n)]
        refine ⟨rfl, ?_⟩
        show (l.run us n).ReadsRemaining - 1 = _
        rw [hrr]; push_cast; ring
      · rw [e, LimitedReader.read_drained _ _ hhit (by omega)]
        refine ⟨hhit, ?_⟩
        show (l.run us n).ReadsRemaining - 1 = _
        rw [hrr]; push_cast; ring

/-- C1: once the budget of the bounded reader is exhausted (`N ≤ 0` with the
sticky flag still clear), every subsequent `Read` returns the 552
"message size too large" SMTP error; the first reads (exactly the first
nine — at most the "up to 10" of the claim) still deliver the bytes the
underlying reader produced, and from the tenth read on the call returns a
zero byte count without consulting the underlying reader (its output is
independent of the underlying result and the remaining budget `N` is
untouched). -/
theorem limitedReader_oversize_grace (l : LimitedReader) (us : Nat → UnderRead)
    (h1 : l.N ≤ 0) (h2 : l.DidHitLimit = false) (hu : ∀ k, (us k).2 = none) (i : Nat) :
    (l.out us i).err = some sizeErr ∧
    (i < 9 → (l.out us i).n = (us i).1) ∧
    (9 ≤ i → ∀ v : UnderRead,
      ((l.run us i).read v).n = 0 ∧ ((l.run us i).read v).err = some sizeErr ∧
      ((l.run us i).read v).state.N = (l.run us i).N) := by
  rcases Nat.eq_zero_or_pos i with hi | hi
  · subst hi
    rw [LimitedReader.out, LimitedReader.run, LimitedReader.read_first l _ h1 h2 (hu 0)]
    exact ⟨rfl, fun _ => rfl, fun h9 => absurd h9 (by omega)⟩
  · obtain ⟨hhit, hrr⟩ := LimitedReader.run_hit l us h1 h2 hu i hi
    by_cases h9 : i < 9
    · have hgt : 1 < (l.run us i).ReadsRemaining := by rw [hrr]; omega
      rw [LimitedReader.out, LimitedReader.read_hit _ _ hhit hgt (hu i)]
      exact ⟨rfl, fun _ => rfl, fun h9c => absurd h9c (by omega)⟩
    · have hle : (l.run us i).ReadsRemaining ≤ 1 := by rw [hrr]; omega
      refine ⟨?_, fun hlt => absurd hlt h9, fun _ v => ?_⟩
      · rw [LimitedReader.out, LimitedReader.read_drained _ _ hhit hle]
      · rw [LimitedReader.read_drained _ _ hhit hle]
        exact ⟨rfl, rfl, rfl⟩

/-- Witness for C1: a concrete exhausted reader; the very next read already
carries the 552 error while passing the underlying 5 bytes through. -/
theorem limitedReader_oversize_grace_witness :
    ((({ N := 0, ReadsRemaining := 0, DidHitLimit := false } : LimitedReader).out
        (fun _ => (5, none)) 0).err = some sizeErr) ∧
    ((({ N := 0, ReadsRemaining := 0, DidHitLimit := false } : LimitedReader).out
        (fun _ => (5, none)) 0).n = 5) :=
  ⟨(limitedReader_oversize_grace _ _ (by decide) rfl (fun _ => rfl) 0).1,
   (limitedReader_oversize_grace _ _ (by decide) rfl (fun _ => rfl) 0).2.1 (by omega)⟩

/-- C2: per connection at most one transaction is active: `StartTX` fails
with `ErrTransaction` exactly when the transaction id is nonzero, and
otherwise stamps the (nonzero) clock value and records the sender; `EndTX`
fails with `ErrTransaction` exactly when the id is zero, and otherwise
zeroes it.  The hypothesis `t ≠ 0` models that `time.Now().UnixNano()` is
never zero. -/
theorem conn_transaction_exclusive (c : Conn) (t : Int) (f : Address) (ht : t ≠ 0) :
    (c.StartTX t f = .error .errTransaction ↔ c.transaction ≠ 0) ∧
    (c.transaction = 0 →
      c.StartTX t f = .ok { c with transaction := t, FromAddr := some f } ∧
      ({ c with transaction := t, FromAddr := some f } : Conn).transaction ≠ 0) ∧
    (c.EndTX = .error .errTransaction ↔ c.transaction = 0) ∧
    (c.transaction ≠ 0 → c.EndTX = .ok { c with transaction := 0 }) := by
  by_cases h : c.transaction = 0
  · simp [Conn.StartTX, Conn.EndTX, h, ht]
  · simp [Conn.StartTX, Conn.EndTX, h]

/-- Witness for C2: starting a transaction on an idle connection succeeds
and stamps the id. -/
theorem conn_transaction_exclusive_witness :
    zeroConn.StartTX 5 { name := [], address := [] } =
      .ok { zeroConn with transaction := 5, FromAddr := some { name := [], address := [] } } :=
  ((conn_transaction_exclusive zeroConn 5 { name := [], address := [] }
      (by decide)).2.1 rfl).1

/-- C3: with the bounded reader installed, `ResetBuffers` clears exactly
the envelope state (sender, recipients, prepend-headers, transaction id)
and re-arms the bounded reader to the full `MaxSize` budget with both the
sticky flag and the grace counter cleared, leaving `User`, `IsTLS` and all
other fields unchanged; `Reset` additionally clears `User` and also leaves
`IsTLS` unchanged.  (The record updates keep every unnamed field of `c`.) -/
theorem conn_resetBuffers_frame (c : Conn) (lr : LimitedReader)
    (h : c.limitedReader = some lr) :
    c.ResetBuffers = some { c with FromAddr := none, ToAddr := [], AdditionalHeaders := [],
                                   transaction := 0,
                                   limitedReader := some { N := c.MaxSize, ReadsRemaining := 0,
                                                           DidHitLimit := false } } ∧
    c.Reset = some { c with FromAddr := none, ToAddr := [], AdditionalHeaders := [],
                            transaction := 0, User := none,
                            limitedReader := some { N := c.MaxSize, ReadsRemaining := 0,
                                                    DidHitLimit := false } } := by
  refine ⟨?_, ?_⟩ <;> simp [Conn.ResetBuffers, Conn.Reset, h]

/-- Witness for C3 on a concrete armed connection. -/
theorem conn_resetBuffers_frame_witness :
    ({ zeroConn with MaxSize := 50, User := some "u", IsTLS := true,
                     limitedReader := some { N := 7, ReadsRemaining := 3,
                                             DidHitLimit := true } } : Conn).ResetBuffers =
      some { zeroConn with MaxSize := 50, User := some "u", IsTLS := true,
                           limitedReader := some { N := 50, ReadsRemaining := 0,
                                                   DidHitLimit := false } } :=
  (conn_resetBuffers_frame _ _ rfl).1

/-- C10 counterexample: on a fresh connection with `MaxSize = 0`,
`setupTextProto` does not install the bounded reader, and the very next
`ResetBuffers` dereferences the nil `limitedReader` pointer — it faults
rather than being defined on every connection state. -/
theorem conn_resetBuffers_maxsize0_counterexample :
    zeroConn.MaxSize = 0 ∧ (zeroConn.setupTextProto).ResetBuffers = none := by
  exact ⟨rfl, rfl⟩

/-- C10 (amended): `ResetBuffers` never faults on any connection on which
the bounded reader is installed, in particular after `setupTextProto` on
any connection with `MaxSize > 0`; with `MaxSize = 0` and no installed
reader it dereferences nil. -/
theorem conn_resetBuffers_total_when_armed (c : Conn)
    (h : c.limitedReader = none → 0 < c.MaxSize) :
    ∃ c2, (c.setupTextProto).ResetBuffers = some c2 := by
  unfold Conn.setupTextProto Conn.ResetBuffers
  by_cases hm : 0 < c.MaxSize
  · simp [hm]
  · cases hcl : c.limitedReader with
    | none => exact absurd (h hcl) hm
    | some lr => simp [hm, hcl]

/-- Witness for C10's amended statement at `MaxSize = 3`. -/
theorem conn_resetBuffers_total_when_armed_witness :
    ∃ c2, (({ zeroConn with MaxSize := 3 } : Conn).setupTextProto).ResetBuffers = some c2 :=
  conn_resetBuffers_total_when_armed _ (fun _ => by norm_num)

/-! ## Theorems about Message (C4 - C8) -/

theorem foldl_ifAppend_eq_filter (p : Address → Bool) (l : List Address) (acc : List Address) :
    l.foldl (fun bcc r => if p r then bcc else bcc ++ [r]) acc
      = acc ++ l.filter (fun r => ! p r) := by
  induction l generalizing acc with
  | nil => simp
  | cons a l ih =>
    by_cases h : p a
    · simp [h, ih]
    · simp [h, ih]

/-- C4: `BCC()` returns exactly the envelope recipients (`Rcpt`) whose
address string is not the address of any entry in the header To list —
the set difference envelope RCPT minus header To by exact address
match — preserving the Rcpt order (a `filter` of `Rcpt`). -/
theorem message_bcc_diff (m : Message) :
    m.BCC = m.Rcpt.filter (fun r => decide (∀ t ∈ m.To, ¬ t.address = r.address)) := by
  unfold Message.BCC
  rw [foldl_ifAppend_eq_filter, List.nil_append]
  apply List.filter_congr
  intro r _
  by_cases h : ∀ t ∈ m.To, ¬ t.address = r.address
  · have hc : (List.map (fun t => t.address) m.To).contains r.address = false := by
      by_contra hcc
      rw [Bool.not_eq_false, List.contains_iff_exists_mem_beq] at hcc
      obtain ⟨a, ham, hbeq⟩ := hcc
      obtain ⟨t, ht, rfl⟩ := List.mem_map.mp ham
      exact h t ht (beq_iff_eq.mp hbeq).symm
    rw [hc]
    simpa using h
  · have hx : ∃ t ∈ m.To, t.address = r.address := by
      push_neg at h
      exact h
    obtain ⟨t, ht, he⟩ := hx
    have hc : (List.map (fun t => t.address) m.To).contains r.address = true := by
      rw [List.contains_iff_exists_mem_beq]
      exact ⟨t.address, List.mem_map_of_mem _ ht, by simp [he]⟩
    rw [hc]
    simpa using h

/-- C5: given that the root Content-Type parses to `mt` and the part list
parses to `parts`, `FindBody ct` resolves in the claimed order: if
`mt = ct`, the body of the first parsed part; else if `mt` is
multipart/alternative, the first root part of type `ct`; else the
children of the first multipart/alternative root part are searched; when
no multipart/alternative section is found in the latter two cases the
outcome is an error (`none` under `toOption`), exactly the spec-side
`findBodySpecOutcome`. -/
theorem message_findBody_resolution (m : Message) (ct mt : Str) (parts : List Part)
    (hmt : parseMediaType (headerGet m.header ("Content-Type".toList)) = .ok mt)
    (hp : m.Parts = .ok parts) :
    (m.FindBody ct).toOption = findBodySpecOutcome mt parts ct := by
  simp only [Message.FindBody, findBodySpecOutcome, hmt, hp]
  by_cases h1 : mt = ct
  · simp only [h1, if_pos rfl]
    cases parts <;> simp [Except.toOption]
  · simp only [if_neg h1]
    by_cases h2 : mt = "multipart/alternative".toList
    · simp only [h2, if_pos rfl]
      cases parts with
      | nil => simp [findTypeInParts, Except.toOption]
      | cons p ps =>
        cases hf : findTypeInParts ct (p :: ps) <;> simp [Except.toOption, hf]
    · simp only [if_neg h2]
      cases ha : findTypeInParts ("multipart/alternative".toList) parts with
      | none => simp [Except.toOption, ha]
      | some alt =>
        simp only [ha]
        cases hc : alt.Children with
        | nil => simp [findTypeInParts, Except.toOption]
        | cons q qs =>
          cases hf : findTypeInParts ct (q :: qs) <;> simp [Except.toOption, hf]

/-- Witness for C5 on a concrete plain-text message: the root type equals
the requested type, so the first (only) part body is returned. -/
theorem message_findBody_resolution_witness :
    (plainMsg.FindBody ("text/plain".toList)).toOption =
      findBodySpecOutcome ("text/plain".toList)
        [{ header := [("Content-Type".toList, "text/plain".toList)],
           Body := "hello".toList, Children := [] }] ("text/plain".toList) :=
  message_findBody_resolution plainMsg ("text/plain".toList) ("text/plain".toList) _ rfl rfl

/-- C6 counterexample: the blob `"Subject: hi\n"` makes the header reader
report end-of-input with no body, yet `NewMessage` FAILS on it (the
augmented blob carries no From header, and From is required), refuting
the claim that NewMessage "succeeds rather than failing" on every such
blob. -/
theorem newMessage_empty_body_counterexample :
    readMessage ("Subject: hi\n".toList) = .error .eof ∧
    NewMessage ("Subject: hi\n".toList) [] = .error .headerNotPresent := ⟨rfl, rfl⟩

/-- C6 (amended): when the header reader reports end-of-input with no
body, `NewMessage` augments the blob — appending a
`Content-Type: text/plain` header exactly when the blob lacks the
substring `"\nContent-Type:"`, then a blank line — re-parses, and
succeeds whenever the augmented blob re-parses and yields a parseable
From header, returning the message built from the re-parse with the
augmented blob as its Source. -/
theorem newMessage_empty_body_recovery (data : Str) (rcpt : List Address)
    (heof : readMessage data = .error .eof)
    (hdr : Header) (body : Str)
    (hre : readMessage (augmentNoBody data) = .ok { header := hdr, body := body })
    (f : Address) (fs : List Address)
    (hfrom : headerAddressList hdr ("From".toList) = .ok (f :: fs)) :
    NewMessage data rcpt =
      .ok { To := (headerAddressList hdr ("To".toList)).toOption.getD [],
            From := f, header := hdr, Subject := headerGet hdr ("subject".toList),
            RawBody := body, Source := augmentNoBody data, Rcpt := rcpt } := by
  simp only [NewMessage, heof, hre, hfrom]

/-- Witness for C6's amended statement: a headers-only blob with a From
header parses successfully, with the synthesized Content-Type and blank
body visible in the Source. -/
theorem newMessage_empty_body_recovery_witness :
    NewMessage ("From: a@b.c\nSubject: hi\n".toList) [] =
      .ok { To := [], From := { name := [], address := "a@b.c".toList },
            header := [("From".toList, "a@b.c".toList), ("Subject".toList, "hi".toList),
                       ("Content-Type".toList, "text/plain".toList)],
            Subject := "hi".toList, RawBody := ['\n'],
            Source := ("From: a@b.c\nSubject: hi\nContent-Type: text/plain\n\n\n".toList),
            Rcpt := [] } :=
  newMessage_empty_body_recovery ("From: a@b.c\nSubject: hi\n".toList) [] rfl
    [("From".toList, "a@b.c".toList), ("Subject".toList, "hi".toList),
     ("Content-Type".toList, "text/plain".toList)] ['\n'] rfl
    { name := [], address := "a@b.c".toList } [] rfl

/-- C7: for any blob whose headers parse (with a From header) and whose
root media type is not multipart, if the body is declared
quoted-printable and the quoted-printable decoder rejects it, then
`NewMessage` still constructs the Message successfully while a subsequent
`Parts()` returns the decode error rather than a part tree. -/
theorem newMessage_invalid_qp (data : Str) (rcpt : List Address)
    (hdr : Header) (body : Str)
    (hread : readMessage data = .ok { header := hdr, body := body })
    (f : Address) (fs : List Address)
    (hfrom : headerAddressList hdr ("From".toList) = .ok (f :: fs))
    (mt : Str)
    (hmt : parseMediaType (headerGet hdr ("Content-Type".toList)) = .ok mt)
    (hnm : ("multipart/".toList).isPrefixOf mt = false)
    (hqp : lowerStr (headerGet hdr ("Content-Transfer-Encoding".toList))
      = "quoted-printable".toList)
    (e : String) (hbad : qpDecode body = .error e) :
    ∃ msg, NewMessage data rcpt = .ok msg ∧ msg.RawBody = body ∧
      msg.Parts = .error e := by
  refine ⟨{ To := (headerAddressList hdr ("To".toList)).toOption.getD [],
            From := f, header := hdr, Subject := headerGet hdr ("subject".toList),
            RawBody := body, Source := data, Rcpt := rcpt }, ?_, rfl, ?_⟩
  · simp only [NewMessage, hread, hfrom]
  · simp only [Message.Parts, parseContent, hmt, hnm, readToPart, hqp, hbad]
    simp

/-- Witness for C7 on a concrete message with the invalid escape `=FG` in
a quoted-printable body. -/
theorem newMessage_invalid_qp_witness :
    ∃ msg, NewMessage qpMail [] = .ok msg ∧ msg.RawBody = "=FG\n".toList ∧
      msg.Parts = .error "quotedprintable: invalid hex byte" :=
  newMessage_invalid_qp qpMail []
    [("From".toList, "a@b.c".toList), ("Content-Type".toList, "text/html".toList),
     ("Content-Transfer-Encoding".toList, "quoted-printable".toList)]
    ("=FG\n".toList) rfl { name := [], address := "a@b.c".toList } [] rfl
    ("text/html".toList) rfl rfl rfl "quotedprintable: invalid hex byte" rfl

/-- C8 counterexample: a part declared quoted-printable with the
malformed content `=FG` makes `readToPart` surface a decode error — it
does NOT return the raw bytes without error, refuting the claimed
leniency of the quoted-printable path. -/
theorem readToPart_qp_strict_counterexample :
    readToPart [("Content-Transfer-Encoding".toList, "quoted-printable".toList)]
        ("=FG".toList) = .error "quotedprintable: invalid hex byte" := rfl

/-- C8 (amended): transfer-decoding of a part is strict for BOTH
encodings: content the quoted-printable decoder rejects makes
`readToPart` surface that error, and content the base64 decoder rejects
does likewise. -/
theorem readToPart_strict (h : Header) (content : Str) (e : String) :
    (lowerStr (headerGet h ("Content-Transfer-Encoding".toList)) = "quoted-printable".toList →
      qpDecode content = .error e → readToPart h content = .error e) ∧
    (lowerStr (headerGet h ("Content-Transfer-Encoding".toList)) = "base64".toList →
      base64Decode content = .error e → readToPart h content = .error e) := by
  constructor
  · intro hc hq
    simp only [readToPart, hc, hq]
    simp
  · intro hc hb
    simp only [readToPart, hc]
    rw [if_neg (by decide)]
    simp [hb]

/-- Witness for C8's amended statement: malformed quoted-printable and
malformed base64 both surface errors. -/
theorem readToPart_strict_witness :
    readToPart [("Content-Transfer-Encoding".toList, "quoted-printable".toList)]
        ("=FG".toList) = .error "quotedprintable: invalid hex byte" ∧
    readToPart [("Content-Transfer-Encoding".toList, "base64".toList)]
        ("!!!!".toList) = .error "illegal base64 data" :=
  ⟨(readToPart_strict _ _ _).1 rfl rfl, (readToPart_strict _ _ _).2 rfl rfl⟩

/-! ## Theorems about NewMessageID (C9) -/

theorem charset_getD_mem : ∀ i < 62, _charset.getD i 'a' ∈ _charset := by decide

theorem charset_no_special : ∀ c ∈ _charset, c ≠ '=' ∧ c ≠ '-' ∧ c ≠ '/' := by decide

theorem getCounter_mem (st : Nat) : (getCounter st).1 ∈ _charset := by
  show _charset.getD (if st + 1 > charIndexes then 0 else st + 1) 'a' ∈ _charset
  by_cases h : st + 1 > charIndexes
  · rw [if_pos h]
    exact charset_getD_mem 0 (by norm_num)
  · rw [if_neg h]
    refine charset_getD_mem (st + 1) ?_
    have hc : charIndexes = 61 := rfl
    omega

theorem replaceChar_mem (s : Str) (old : Char) (new : Str) (c : Char)
    (hc : c ∈ replaceChar s old new) : (c ∈ s ∧ c ≠ old) ∨ c ∈ new := by
  unfold replaceChar at hc
  rw [List.mem_flatten] at hc
  obtain ⟨l, hl, hcl⟩ := hc
  rw [List.mem_map] at hl
  obtain ⟨a, ha, rfl⟩ := hl
  by_cases h : a = old
  · rw [if_pos h] at hcl
    exact Or.inr hcl
  · rw [if_neg h] at hcl
    have hca : c = a := by simpa using hcl
    subst hca
    exact Or.inl ⟨ha, h⟩

/-- C9 counterexample: the length of the random buffer is
`rand.Intn(18-13) + 13`, so its possible values are exactly 13..17 and a
length of 18 is impossible — the draw is NOT uniform over the closed
interval [13,18]. -/
theorem newMessageID_length_counterexample :
    (Finset.image (randomInt 13 18) (Finset.range (18 - 13)) : Finset Nat)
        = ({13, 14, 15, 16, 17} : Finset Nat) ∧
    (18 : Nat) ∉ Finset.image (randomInt 13 18) (Finset.range (18 - 13)) := by
  decide

/-- C9 (amended): every `NewMessageID` output is the base-36 time
component with its leading four digits discarded, then one rotating
alphabet counter character, then the base64-url encoding of the random
buffer with padding stripped, every `-` replaced by one counter character
and every `/` by the next, then one final counter character; the buffer
length lies in [13,18) (not [13,18]); all four counter characters belong
to the 62-character alphabet; and the replaced block contains no `=`, `-`
or `/`. -/
theorem newMessageID_structure (nowMs intn5 : Nat) (key : Nat → Nat) (counter : Nat)
    (h5 : intn5 < 18 - 13) :
    (NewMessageID nowMs intn5 key counter).1
      = (natToBase36 (nowMs + randomInt 13 18 intn5)).drop 4
        ++ [(getCounter (getCounter (getCounter counter).2).2).1]
        ++ replaceChar (replaceChar (replaceChar
             (base64UrlEncode ((List.range (randomInt 13 18 intn5)).map (fun i => key i % 256)))
             '=' []) '-' [(getCounter counter).1]) '/' [(getCounter (getCounter counter).2).1]
        ++ [(getCounter (getCounter (getCounter (getCounter counter).2).2).2).1] ∧
    13 ≤ randomInt 13 18 intn5 ∧ randomInt 13 18 intn5 < 18 ∧
    (getCounter counter).1 ∈ _charset ∧
    (getCounter (getCounter counter).2).1 ∈ _charset ∧
    (getCounter (getCounter (getCounter counter).2).2).1 ∈ _charset ∧
    (getCounter (getCounter (getCounter (getCounter counter).2).2).2).1 ∈ _charset ∧
    (∀ c ∈ replaceChar (replaceChar (replaceChar
         (base64UrlEncode ((List.range (randomInt 13 18 intn5)).map (fun i => key i % 256)))
         '=' []) '-' [(getCounter counter).1]) '/' [(getCounter (getCounter counter).2).1],
       c ≠ '=' ∧ c ≠ '-' ∧ c ≠ '/') := by
  refine ⟨rfl, by simp [randomInt], by simp [randomInt]; omega,
    getCounter_mem _, getCounter_mem _, getCounter_mem _, getCounter_mem _, ?_⟩
  intro c hc
  rcases replaceChar_mem _ _ _ c hc with ⟨h1, hslash⟩ | hcb
  · rcases replaceChar_mem _ _ _ c h1 with ⟨h2, hdash⟩ | hca
    · rcases replaceChar_mem _ _ _ c h2 with ⟨_, heq⟩ | hfalse
      · exact ⟨heq, hdash, hslash⟩
      · simp at hfalse
    · have hceq : c = (getCounter counter).1 := by simpa using hca
      subst hceq
      exact charset_no_special _ (getCounter_mem counter)
  · have hceq : c = (getCounter (getCounter counter).2).1 := by simpa using hcb
    subst hceq
    exact charset_no_special _ (getCounter_mem _)

/-- Witness for C9's amended statement at a concrete draw. -/
theorem newMessageID_structure_witness :
    13 ≤ randomInt 13 18 2 ∧ randomInt 13 18 2 < 18 :=
  ⟨(newMessageID_structure 0 2 (fun _ => 0) 0 (by norm_num)).2.1,
   (newMessageID_structure 0 2 (fun _ => 0) 0 (by norm_num)).2.2.1⟩

end Smtpd
